import Mathlib

/-!
Shallow embedding of the webesheet server's grid projection and
reconciliation engine (the Excel-backed grid editor found in the
repository's merged-cell-aware server revision).  Pure data transforms of
the JavaScript are rendered as Lean functions; the worksheet that ExcelJS
keeps in memory is an explicit value threaded through the save endpoint.
-/

namespace Webesheet

/-- A non-array JavaScript value as it flows through the server:
primitives, rich-text objects (objects carrying a `richText` array of text
runs), and other objects.  For a generic object only its `toString()`
rendering and its `JSON.stringify` rendering are retained, since those are
the only observations the server ever makes of one.  Array values appear
only at the two outer levels of a save request body and are modelled
separately by `BodyData`/`BodyRow` below. -/
inductive JSValue where
  | null
  | undefined
  | str (s : String)
  | num (n : Int)
  | bool (b : Bool)
  | richText (runs : List String)
  | obj (toStr : String) (json : String)
  deriving DecidableEq, Repr

/-- JavaScript truthiness: `null`, `undefined`, `""`, `0` and `false` are
falsy; every object (including every rich-text object) is truthy. -/
def jsTruthy : JSValue → Bool
  | JSValue.null => false
  | JSValue.undefined => false
  | JSValue.str s => s != ""
  | JSValue.num n => n != 0
  | JSValue.bool b => b
  | JSValue.richText _ => true
  | JSValue.obj _ _ => true

/-- `String(v)` / `v.toString()`: JavaScript string conversion.  A plain
object renders via its stored `toString()` text; a rich-text object is a
plain object, hence `"[object Object]"`.  (Numbers in this model are
integers, for which Lean's `toString` agrees with JavaScript's.) -/
def jsToStr : JSValue → String
  | JSValue.null => "null"
  | JSValue.undefined => "undefined"
  | JSValue.str s => s
  | JSValue.num n => toString n
  | JSValue.bool b => cond b "true" "false"
  | JSValue.richText _ => "[object Object]"
  | JSValue.obj t _ => t

/-- `JSON.stringify(v)` (string escaping beyond quoting is elided; no
value the server manipulates in the verified claims reaches this
function). -/
def jsJson : JSValue → String
  | JSValue.null => "null"
  | JSValue.undefined => "null"
  | JSValue.str s => "\"" ++ s ++ "\""
  | JSValue.num n => toString n
  | JSValue.bool b => cond b "true" "false"
  | JSValue.richText runs =>
      "\x7b\"richText\":[" ++
        String.intercalate "," (runs.map (fun t => "\x7b\"text\":\"" ++ t ++ "\"\x7d")) ++
        "]\x7d"
  | JSValue.obj _ j => j

/-- One native ExcelJS cell as the server observes it: the `formula`,
`result`, `text` and `value` properties (each `undefined` when absent). -/
structure Cell where
  formula : JSValue
  result : JSValue
  text : JSValue
  value : JSValue
  deriving DecidableEq, Repr

/-- `extractCellValue(cell)` (part_000 lines 33–61): converts one cell to
a display value.  A formula cell yields `cell.result || ""`; a
`null`/`undefined` value yields `""`; a rich-text value yields the joined
run texts (`.map(rt => rt.text).join("") || ""`); another object value
yields `cell.text || (toString() !== '[object Object]' ? toString() :
JSON.stringify(value))`; a primitive value is returned as-is (note: not
stringified). -/
def extractCellValue (cell : Option Cell) : JSValue :=
  match cell with
  | none => JSValue.str ""
  | some c =>
    if jsTruthy c.formula then
      if jsTruthy c.result then c.result else JSValue.str ""
    else if c.value = JSValue.null ∨ c.value = JSValue.undefined then
      JSValue.str ""
    else
      match c.value with
      | JSValue.richText runs => JSValue.str (String.join runs)
      | JSValue.obj t j =>
          if jsTruthy c.text then c.text
          else if jsToStr (JSValue.obj t j) != "[object Object]" then
            JSValue.str (jsToStr (JSValue.obj t j))
          else JSValue.str (jsJson (JSValue.obj t j))
      | v => v

/-- A merged-cell range `{top, left, bottom, right}` with 1-based
inclusive bounds, as produced from the worksheet's `_merges` dictionary
and as supplied in a save request's `mergedCells` array. -/
structure MergeRange where
  top : Nat
  left : Nat
  bottom : Nat
  right : Nat
  deriving DecidableEq, Repr

/-- Two ranges overlap when some cell lies in both rectangles. -/
def rangesOverlap (a b : MergeRange) : Bool :=
  a.top ≤ b.bottom && b.top ≤ a.bottom && a.left ≤ b.right && b.left ≤ a.right

/-- An ExcelJS worksheet as the server observes it: the stored rows (each
a list of cell slots, `none` for an empty slot) and the merge dictionary
`_merges` in insertion order. -/
structure Worksheet where
  rows : List (List (Option Cell))
  merges : List MergeRange
  deriving DecidableEq, Repr

/-- `worksheet.rowCount`: the number of stored rows. -/
def Worksheet.rowCount (ws : Worksheet) : Nat := ws.rows.length

/-- `worksheet.columnCount`: the maximum cell count over all rows. -/
def Worksheet.columnCount (ws : Worksheet) : Nat :=
  ws.rows.foldr (fun r acc => max r.length acc) 0

def emptyWorksheet : Worksheet := { rows := [], merges := [] }

/-!
### Grid flattening (`app.get("/data")`, part_000 lines 196–237)

The endpoint allocates a dense `maxRow × maxCol` matrix of `""`, copies
every cell's extracted value in, runs the merged-cell fill over the
`mergedCells` list it computed, and finally drops rows with no data.
The `mergedCells` computation itself is broken: see
`reportedMergedCells`.
-/

/-- Lines 182–192 (and 374–384): `const mergedCells =
worksheet.mergeCells._merges ? Object.keys(worksheet._merges).map(...) : []`.
`worksheet.mergeCells` is the ExcelJS *method*, not the worksheet's merge
dictionary, so `worksheet.mergeCells._merges` is `undefined` and the
ternary always takes the `[]` branch — the `Object.keys(worksheet._merges)`
in the truthy branch shows `worksheet._merges` was meant.  The merged-cell
fill of lines 211–220 therefore never runs, and every response reports an
empty `mergedCells` list. -/
def reportedMergedCells (_ws : Worksheet) : List MergeRange := []

/-- `const maxCol = worksheet.columnCount || 10` (line 198). -/
def maxColOf (ws : Worksheet) : Nat :=
  if ws.columnCount = 0 then 10 else ws.columnCount

/-- Read entry `(r, c)` (0-based) of a matrix. -/
def getCell (m : List (List JSValue)) (r c : Nat) : JSValue :=
  (m.getD r []).getD c JSValue.undefined

/-- Write entry `(r, c)` (0-based) of a matrix (no-op out of bounds; the
server only writes in-bounds entries). -/
def setCell (m : List (List JSValue)) (r c : Nat) (v : JSValue) : List (List JSValue) :=
  m.set r ((m.getD r []).set c v)

/-- Lines 201–208: the `maxRow × maxCol` matrix initialised with `""` and
overwritten with `extractCellValue(cell)` at every stored cell slot.
A slot beyond a row's stored cells keeps the `""` padding, which is also
what `extractCellValue` yields for an empty cell. -/
def fillMatrix (ws : Worksheet) : List (List JSValue) :=
  ws.rows.map (fun row =>
    (List.range (maxColOf ws)).map (fun c => extractCellValue (row.getD c none)))

/-- The 1-based `(row, column)` coordinates visited by the two nested
`for` loops of the merged-cell fill (lines 215–219), in loop order. -/
def mergeCellsList (mg : MergeRange) : List (Nat × Nat) :=
  (List.range' mg.top (mg.bottom + 1 - mg.top)).flatMap (fun r =>
    (List.range' mg.left (mg.right + 1 - mg.left)).map (fun c => (r, c)))

/-- Lines 211–220 as written: read the anchor value at `(top, left)`,
then copy it to every cell of the merged rectangle (the anchor's own
position included).  At runtime this pass receives the always-empty
`reportedMergedCells` list and never fires. -/
def applyMerge (m : List (List JSValue)) (mg : MergeRange) : List (List JSValue) :=
  let topValue := getCell m (mg.top - 1) (mg.left - 1)
  (mergeCellsList mg).foldl (fun acc rc => setCell acc (rc.1 - 1) (rc.2 - 1) topValue) m

/-- `mergedCells.forEach(merge => ...)`: the fill-down pass over every
merge range, in dictionary order. -/
def applyMerges (m : List (List JSValue)) (merges : List MergeRange) : List (List JSValue) :=
  merges.foldl applyMerge m

/-- Line 223: `dataMatrix.filter(row => row.some(cell => cell !== ""))` —
only rows with at least some data.  The fill pass runs over the
`mergedCells` the endpoint computed, which (see `reportedMergedCells`) is
always `[]`, so the matrix is filtered unfilled. -/
def finalData (ws : Worksheet) : List (List JSValue) :=
  (applyMerges (fillMatrix ws) (reportedMergedCells ws)).filter
    (fun row => row.any (fun cell => cell ≠ JSValue.str ""))

/-- The JSON body of a successful `/data` response: either the
`{data, mergedCells}` object (line 234) or — when no row has data — the
bare placeholder grid `[["","","",""]]` (line 228). -/
inductive DataResponse where
  | wrapped (data : List (List JSValue)) (mergedCells : List MergeRange)
  | bareGrid (data : List (List JSValue))
  deriving DecidableEq, Repr

/-- The successful path of `app.get("/data")` for a present worksheet
(lines 196–237): flatten, filter, and choose the response shape.  The
`mergedCells` field of the wrapped response is the endpoint's computed
list — always `[]`, see `reportedMergedCells` — not the worksheet's
actual merge dictionary. -/
def dataEndpoint (ws : Worksheet) : DataResponse :=
  let fd := finalData ws
  if fd = [] then
    DataResponse.bareGrid
      [[JSValue.str "", JSValue.str "", JSValue.str "", JSValue.str ""]]
  else DataResponse.wrapped fd (reportedMergedCells ws)

/-!
### Saving (`app.post("/save")`, part_000 lines 245–317)
-/

/-- One entry of a save request's `data` array: either a row array of cell
values or a non-array value (which the row filter drops). -/
inductive BodyRow where
  | scalar (v : JSValue)
  | arr (cells : List JSValue)
  deriving DecidableEq, Repr

/-- The `data` field of a save request body: either an array of rows or a
non-array value (`undefined` when the field is absent). -/
inductive BodyData where
  | scalar (v : JSValue)
  | arr (rows : List BodyRow)
  deriving DecidableEq, Repr

/-- `!req.body.data`: JavaScript truthiness of the `data` field (arrays
are always truthy). -/
def BodyData.truthy : BodyData → Bool
  | BodyData.scalar v => jsTruthy v
  | BodyData.arr _ => true

/-- A parsed save request body.  `mergedCells` is `some` exactly when the
body carries a `mergedCells` value that is an array of range objects
(line 301 checks `req.body.mergedCells && Array.isArray(...)`; a
non-array or absent value takes the `none` branch). -/
structure SaveBody where
  data : BodyData
  mergedCells : Option (List MergeRange)
  deriving DecidableEq, Repr

/-- Line 261's row predicate:
`Array.isArray(row) && row.some(cell => cell !== null && cell !== "")`.
Strict inequality keeps `undefined`, `0`, `false` and whitespace-only
strings as data. -/
def keepRow : BodyRow → Bool
  | BodyRow.scalar _ => false
  | BodyRow.arr cells =>
      cells.any (fun cell => cell ≠ JSValue.null ∧ cell ≠ JSValue.str "")

/-- The cell lists of the surviving rows (every survivor is an array). -/
def BodyRow.cells : BodyRow → List JSValue
  | BodyRow.scalar _ => []
  | BodyRow.arr cs => cs

/-- ExcelJS `row.hasValues`: some cell slot of the row is defined. -/
def rowHasValues (row : List (Option Cell)) : Bool :=
  row.any (fun c => c.isSome)

/-- Lines 286–288: `worksheet.eachRow((row, n) => worksheet.spliceRows(n, 1))`.
ExcelJS's `eachRow` is `Array.prototype.forEach` over the live `_rows`
array, firing only on rows with values; each fired splice removes the row
under the cursor, so the iteration's next step lands past the row that
slides into its place.  Modelled as a walk over (rows kept behind the
cursor, rows ahead of the cursor): a removed row makes the cursor jump
over the next one.  (On the empty worksheets the verified claims exercise
this is the identity.) -/
def clearRowsLoop (behind : List (List (Option Cell))) :
    List (List (Option Cell)) → List (List (Option Cell))
  | [] => behind
  | x :: ahead =>
      if rowHasValues x then
        match ahead with
        | [] => behind
        | y :: ahead' => clearRowsLoop (behind ++ [y]) ahead'
      else clearRowsLoop (behind ++ [x]) ahead

/-- The cell created by `cell.value = cellValue` (line 295) on a fresh or
cleared slot: no formula, no cached result, just the assigned value.  (The
derived `text` property of ExcelJS is never consulted for the
primitive-valued cells the claims exercise, so it is left `undefined`.) -/
def mkValueCell (v : JSValue) : Cell :=
  { formula := JSValue.undefined, result := JSValue.undefined,
    text := JSValue.undefined, value := v }

/-- `list.set i x`, first padding the list with `pad` up to index `i` the
way a JavaScript index assignment (via ExcelJS `getRow`/`getCell`) extends
a too-short collection. -/
def listSetPad (l : List α) (i : Nat) (pad : α) (x : α) : List α :=
  if i < l.length then l.set i x
  else l ++ List.replicate (i - l.length) pad ++ [x]

/-- Lines 293–296: `rowData.forEach((cellValue, colIndex) => row.getCell(colIndex+1).value = cellValue)`,
starting from cell index `idx`. -/
def writeCells (row : List (Option Cell)) (idx : Nat) : List JSValue → List (Option Cell)
  | [] => row
  | v :: vs => writeCells (listSetPad row idx none (some (mkValueCell v))) (idx + 1) vs

/-- Lines 291–298: `filteredData.forEach((rowData, rowIndex) => ...)` —
fetch (or create) worksheet row `rowIndex + 1` and write the row's cells
into it, starting from row index `idx`. -/
def writeGrid (rows : List (List (Option Cell))) (idx : Nat) :
    List (List JSValue) → List (List (Option Cell))
  | [] => rows
  | rowData :: rest =>
      writeGrid (listSetPad rows idx [] (writeCells (rows.getD idx []) 0 rowData)) (idx + 1) rest

/-- The JSON result of `app.post("/save")`: a 400 rejection issued before
the spreadsheet file is touched, a 500 produced by the catch-all handler
(lines 313–316) when something thrown inside the try block — in practice
the worksheet merge operation — is caught, or the success body
`{message, rowCount}`. -/
inductive SaveResult where
  | badRequest (error : String)
  | serverError (error : String)
  | ok (rowCount : Nat)
  deriving DecidableEq, Repr

/-- Line 302–305: `req.body.mergedCells.forEach(merge => worksheet.mergeCells(range))`,
one range at a time in request order.  `worksheet.mergeCells` is the
external ExcelJS operation: it records the range unless it intersects an
already-recorded merge, in which case it throws
`Error('Cannot merge already merged cells')` — the spec calls overlap
freedom "spreadsheet-enforced".  The repository code performs no
validation of its own, so the first ranges of the list are already
applied to the in-memory worksheet when a later range conflicts. -/
def applyRequestMerges (ws : Worksheet) : List MergeRange → Except String Worksheet
  | [] => Except.ok ws
  | r :: rest =>
      if ws.merges.any (fun m => rangesOverlap m r) then
        Except.error "Cannot merge already merged cells"
      else applyRequestMerges { ws with merges := ws.merges ++ [r] } rest

/-- `app.post("/save")` (lines 245–317) acting on the stored spreadsheet
file, modelled as `none` (no file) or `some worksheet` (the first
worksheet of the stored workbook).  Input validation runs before the file
is read; then the worksheet is cleared, the filtered rows are written
back, any supplied merge ranges are re-applied in order via the
worksheet's merge operation — the A1-style range string built on line 303
is decoded back to the same bounds by that operation — and only then is
the file written.  If a merge throws (see `applyRequestMerges`), the
catch-all handler answers 500 and `writeFile` never runs, so the stored
file is unchanged.  The `existingMerges` list computed on lines 282–283
is never used afterwards, faithfully to the source. -/
def saveEndpoint (body : Option SaveBody) (file : Option Worksheet) :
    SaveResult × Option Worksheet :=
  match body with
  | none => (SaveResult.badRequest "Invalid data format. Expected \x7bdata: [...]\x7d", file)
  | some b =>
    if !b.data.truthy then
      (SaveResult.badRequest "Invalid data format. Expected \x7bdata: [...]\x7d", file)
    else
      match b.data with
      | BodyData.scalar _ =>
          (SaveResult.badRequest "Invalid data format. Expected data to be an array.", file)
      | BodyData.arr rows =>
          let filteredData := rows.filter keepRow
          let ws := match file with
            | some w => w
            | none => emptyWorksheet
          let ws1 : Worksheet := { ws with rows := clearRowsLoop [] ws.rows }
          let ws2 : Worksheet :=
            { ws1 with rows := writeGrid ws1.rows 0 (filteredData.map BodyRow.cells) }
          match b.mergedCells with
          | some ms =>
              match applyRequestMerges ws2 ms with
              | Except.ok ws3 => (SaveResult.ok filteredData.length, some ws3)
              | Except.error e => (SaveResult.serverError e, file)
          | none => (SaveResult.ok filteredData.length, some ws2)

/-!
### PDF export (`app.get("/export-pdf")`, part_000 lines 320–531)

The export rebuilds `finalData` exactly as `/data` does, then draws
`finalData[0]` as headers and walks `finalData[1..]` as data rows,
starting a new page whenever `(i - 1) % rowsPerPage === 0 && i > 1`.
-/

/-- `const rowsPerPage = 30` (line 371). -/
def rowsPerPage : Nat := 30

/-- One step of the data-row walk (lines 478–493): state is the emitted
pages plus the page under construction, each page the list of `finalData`
indices drawn on it. -/
def pageStep (st : List (List Nat) × List Nat) (i : Nat) : List (List Nat) × List Nat :=
  if (i - 1) % rowsPerPage = 0 ∧ 1 < i then (st.1 ++ [st.2], [i])
  else (st.1, st.2 ++ [i])

/-- The pages produced for `numDataRows` data rows: the loop
`for (let i = 1; i < finalData.length; i++)` visits `i = 1 .. numDataRows`
and the page under construction at the end is the last page. -/
def pdfDataPages (numDataRows : Nat) : List (List Nat) :=
  let st := (List.range' 1 numDataRows).foldl pageStep ([], [])
  st.1 ++ [st.2]

/-- The data pages for a flattened grid whose first row is the header
row. -/
def exportDataPages (finalData : List (List JSValue)) : List (List Nat) :=
  pdfDataPages (finalData.length - 1)

/-- `String(cell || "")` (lines 447, 499): a falsy cell renders as the
empty string, anything else via JavaScript string conversion. -/
def jsStringOr (v : JSValue) : String :=
  if jsTruthy v then jsToStr v else ""

/-- `.replace(/[^\x00-\x7F]/g, " ")` (lines 448, 500): every character
with a code point above 127 becomes a space; 7-bit characters — control
characters included — pass through. -/
def replaceNonAscii (s : String) : String :=
  String.mk (s.data.map (fun ch => if ch.toNat ≤ 127 then ch else ' '))

/-- `.substring(0, n)` (lines 449, 501). -/
def jsSubstring (s : String) (n : Nat) : String :=
  String.mk (s.data.take n)

/-- The header text queued for drawing (lines 446–449): sanitize, then
truncate to 15 characters. -/
def sanitizeHeaderCell (v : JSValue) : String :=
  jsSubstring (replaceNonAscii (jsStringOr v)) 15

/-- The data-cell text queued for drawing (lines 497–501): sanitize, then
truncate to 20 characters. -/
def sanitizeDataCell (v : JSValue) : String :=
  jsSubstring (replaceNonAscii (jsStringOr v)) 20

/-- Printable ASCII, the range the spec says sanitization enforces. -/
def printableAscii (ch : Char) : Prop :=
  32 ≤ ch.toNat ∧ ch.toNat ≤ 126

instance (ch : Char) : Decidable (printableAscii ch) := by
  unfold printableAscii; infer_instance

/-- `DataResponse` shape observer: is the response the
`{data, mergedCells}` object? -/
def DataResponse.isWrapped : DataResponse → Bool
  | DataResponse.wrapped _ _ => true
  | DataResponse.bareGrid _ => false

/-- The concrete ragged two-row worksheet (first row one cell, second row
two cells) used to witness C8. -/
def raggedWs : Worksheet :=
  Worksheet.mk
    [[some (mkValueCell (JSValue.str "a"))],
     [some (mkValueCell (JSValue.str "b")), some (mkValueCell (JSValue.str "c"))]]
    []

/-- The spec's own merge example: anchor `(1,1) = "X"` merged over rows
1–2, columns 1–2 of a 2×3 worksheet. -/
def mergedWs : Worksheet :=
  Worksheet.mk
    [[some (mkValueCell (JSValue.str "X")), some (mkValueCell (JSValue.str "a")),
      some (mkValueCell (JSValue.str "p"))],
     [some (mkValueCell (JSValue.str "b")), some (mkValueCell (JSValue.str "c")),
      some (mkValueCell (JSValue.str "q"))]]
    [MergeRange.mk 1 1 2 2]

/-- The spec's merge example with the merge's non-anchor cells stored
empty, as a merged sheet stores them: anchor `(1,1) = "X"` merged over
rows 1–2, columns 1–2; column 3 carries data so both rows survive the
blank-row filter. -/
def specMergeWs : Worksheet :=
  Worksheet.mk
    [[some (mkValueCell (JSValue.str "X")), none, some (mkValueCell (JSValue.str "p"))],
     [none, none, some (mkValueCell (JSValue.str "q"))]]
    [MergeRange.mk 1 1 2 2]

/-!
### Helper lemmas about list indexing
-/

theorem getD_set_self {α : Type} {l : List α} {i : Nat} {a d : α} (h : i < l.length) :
    (l.set i a).getD i d = a := by
  simp [List.getD_eq_getElem?_getD, List.getElem?_set_self h]

theorem getD_set_ne {α : Type} {l : List α} {i j : Nat} {a d : α} (h : i ≠ j) :
    (l.set i a).getD j d = l.getD j d := by
  simp [List.getD_eq_getElem?_getD, List.getElem?_set_ne h]

theorem getD_of_lt {α : Type} {l : List α} {i : Nat} (d : α) (h : i < l.length) :
    l.getD i d = l[i] := by
  simp [List.getD_eq_getElem?_getD, List.getElem?_eq_getElem h]

theorem getD_of_length_le {α : Type} {l : List α} {i : Nat} (d : α) (h : l.length ≤ i) :
    l.getD i d = d := by
  simp [List.getD_eq_getElem?_getD, List.getElem?_eq_none h]

theorem getD_map_of_lt {α β : Type} {l : List α} {f : α → β} {i : Nat} (d : β)
    (h : i < l.length) :
    (l.map f).getD i d = f l[i] := by
  simp [List.getD_eq_getElem?_getD, List.getElem?_eq_getElem h]

theorem range_map_getD {α β : Type} (l : List α) (f : α → β) (d : α) :
    (List.range l.length).map (fun i => f (l.getD i d)) = l.map f := by
  apply List.ext_getElem
  · simp
  · intro i h1 h2
    simp only [List.getElem_map, List.getElem_range]
    rw [getD_of_lt d (by simpa using h2)]

/-!
### Helper lemmas about the merged-cell fill
-/

theorem length_setCell (m : List (List JSValue)) (r c : Nat) (v : JSValue) :
    (setCell m r c v).length = m.length := by
  simp [setCell]

theorem rowLen_setCell (m : List (List JSValue)) (r c : Nat) (v : JSValue) (i : Nat) :
    ((setCell m r c v).getD i []).length = (m.getD i []).length := by
  unfold setCell
  by_cases hir : i = r
  · subst hir
    by_cases hi : i < m.length
    · rw [getD_set_self hi]; simp
    · rw [List.set_eq_of_length_le (Nat.le_of_not_lt hi)]
  · rw [getD_set_ne (fun h => hir h.symm)]

theorem getCell_setCell_self {m : List (List JSValue)} {r c : Nat} (v : JSValue)
    (hr : r < m.length) (hc : c < (m.getD r []).length) :
    getCell (setCell m r c v) r c = v := by
  unfold getCell setCell
  rw [getD_set_self hr, getD_set_self hc]

theorem getCell_setCell_ne {m : List (List JSValue)} {i j r c : Nat} (v : JSValue)
    (h : r ≠ i ∨ c ≠ j) :
    getCell (setCell m i j v) r c = getCell m r c := by
  unfold getCell setCell
  rcases h with h | h
  · rw [getD_set_ne (fun hh => h hh.symm)]
  · by_cases hri : r = i
    · subst hri
      by_cases hr : r < m.length
      · rw [getD_set_self hr, getD_set_ne (fun hh => h hh.symm)]
      · rw [List.set_eq_of_length_le (Nat.le_of_not_lt hr)]
    · rw [getD_set_ne (fun hh => hri hh.symm)]

theorem length_foldl_setCell (ps : List (Nat × Nat)) (v : JSValue) (m : List (List JSValue)) :
    (ps.foldl (fun acc rc => setCell acc (rc.1 - 1) (rc.2 - 1) v) m).length = m.length := by
  induction ps generalizing m with
  | nil => rfl
  | cons p ps ih => rw [List.foldl_cons, ih, length_setCell]

theorem rowLen_foldl_setCell (ps : List (Nat × Nat)) (v : JSValue) (m : List (List JSValue))
    (i : Nat) :
    ((ps.foldl (fun acc rc => setCell acc (rc.1 - 1) (rc.2 - 1) v) m).getD i []).length
      = (m.getD i []).length := by
  induction ps generalizing m with
  | nil => rfl
  | cons p ps ih => rw [List.foldl_cons, ih, rowLen_setCell]

theorem getCell_foldl_setCell (ps : List (Nat × Nat)) (v : JSValue) (m : List (List JSValue))
    (r c : Nat) (hpos : ∀ p ∈ ps, 1 ≤ p.1 ∧ 1 ≤ p.2)
    (hr : r < m.length) (hc : c < (m.getD r []).length) :
    getCell (ps.foldl (fun acc rc => setCell acc (rc.1 - 1) (rc.2 - 1) v) m) r c
      = if (r + 1, c + 1) ∈ ps then v else getCell m r c := by
  induction ps generalizing m with
  | nil => simp
  | cons p ps ih =>
    rw [List.foldl_cons]
    have hpos' : ∀ q ∈ ps, 1 ≤ q.1 ∧ 1 ≤ q.2 := fun q hq => hpos q (List.mem_cons_of_mem _ hq)
    have hp := hpos p (List.mem_cons_self _ _)
    have hr1 : r < (setCell m (p.1 - 1) (p.2 - 1) v).length := by
      rw [length_setCell]; exact hr
    have hc1 : c < ((setCell m (p.1 - 1) (p.2 - 1) v).getD r []).length := by
      rw [rowLen_setCell]; exact hc
    rw [ih _ hpos' hr1 hc1]
    by_cases hmem : (r + 1, c + 1) ∈ ps
    · rw [if_pos hmem, if_pos (List.mem_cons_of_mem _ hmem)]
    · rw [if_neg hmem]
      by_cases hpeq : (r + 1, c + 1) = p
      · have h1 : p.1 - 1 = r := by rw [← hpeq]; omega
        have h2 : p.2 - 1 = c := by rw [← hpeq]; omega
        rw [if_pos (by rw [hpeq]; exact List.mem_cons_self _ _), h1, h2]
        exact getCell_setCell_self v hr hc
      · rw [if_neg (by simp [List.mem_cons, hpeq, hmem])]
        apply getCell_setCell_ne
        by_contra hand
        push_neg at hand
        exact hpeq (by rcases hand with ⟨e1, e2⟩; rcases p with ⟨p1, p2⟩
                       simp only at e1 e2 hp
                       rw [Prod.mk.injEq]
                       omega)

theorem mem_mergeCellsList {mg : MergeRange} {p : Nat × Nat} :
    p ∈ mergeCellsList mg ↔
      (mg.top ≤ p.1 ∧ p.1 ≤ mg.bottom ∧ mg.left ≤ p.2 ∧ p.2 ≤ mg.right) := by
  rcases p with ⟨r, c⟩
  unfold mergeCellsList
  simp only [List.mem_flatMap, List.mem_map, List.mem_range'_1, Prod.mk.injEq]
  constructor
  · rintro ⟨a, ⟨ha1, ha2⟩, b, ⟨hb1, hb2⟩, he1, he2⟩
    omega
  · rintro ⟨h1, h2, h3, h4⟩
    exact ⟨r, by omega, c, by omega, rfl, rfl⟩

theorem not_both_of_not_overlap {a b : MergeRange} (h : rangesOverlap a b = false)
    (r c : Nat) :
    ¬((a.top ≤ r ∧ r ≤ a.bottom ∧ a.left ≤ c ∧ c ≤ a.right) ∧
      (b.top ≤ r ∧ r ≤ b.bottom ∧ b.left ≤ c ∧ c ≤ b.right)) := by
  simp only [rangesOverlap, Bool.and_eq_false_imp, Bool.and_eq_true,
    decide_eq_true_eq, decide_eq_false_iff_not] at h
  omega

theorem length_applyMerge (m : List (List JSValue)) (mg : MergeRange) :
    (applyMerge m mg).length = m.length := by
  simp only [applyMerge]
  exact length_foldl_setCell _ _ _

theorem rowLen_applyMerge (m : List (List JSValue)) (mg : MergeRange) (i : Nat) :
    ((applyMerge m mg).getD i []).length = (m.getD i []).length := by
  simp only [applyMerge]
  exact rowLen_foldl_setCell _ _ _ _

theorem length_applyMerges (ms : List MergeRange) (m : List (List JSValue)) :
    (applyMerges m ms).length = m.length := by
  induction ms generalizing m with
  | nil => rfl
  | cons a ms ih =>
    show (applyMerges (applyMerge m a) ms).length = m.length
    rw [ih, length_applyMerge]

theorem rowLen_applyMerges (ms : List MergeRange) (m : List (List JSValue)) (i : Nat) :
    ((applyMerges m ms).getD i []).length = (m.getD i []).length := by
  induction ms generalizing m with
  | nil => rfl
  | cons a ms ih =>
    show ((applyMerges (applyMerge m a) ms).getD i []).length = (m.getD i []).length
    rw [ih, rowLen_applyMerge]

theorem getCell_applyMerge_in {m : List (List JSValue)} {mg : MergeRange} {r c : Nat}
    (hv : 1 ≤ mg.top ∧ 1 ≤ mg.left)
    (hin : mg.top ≤ r ∧ r ≤ mg.bottom ∧ mg.left ≤ c ∧ c ≤ mg.right)
    (hr : r - 1 < m.length) (hc : c - 1 < (m.getD (r - 1) []).length) :
    getCell (applyMerge m mg) (r - 1) (c - 1)
      = getCell m (mg.top - 1) (mg.left - 1) := by
  simp only [applyMerge]
  have hpos : ∀ p ∈ mergeCellsList mg, 1 ≤ p.1 ∧ 1 ≤ p.2 := by
    intro p hp
    rw [mem_mergeCellsList] at hp
    omega
  rw [getCell_foldl_setCell _ _ _ _ _ hpos hr hc]
  rw [if_pos (by rw [mem_mergeCellsList]; simp only; omega)]

theorem getCell_applyMerge_out {m : List (List JSValue)} {mg : MergeRange} {r c : Nat}
    (hv : 1 ≤ mg.top ∧ 1 ≤ mg.left) (h1 : 1 ≤ r) (h2 : 1 ≤ c)
    (hout : ¬(mg.top ≤ r ∧ r ≤ mg.bottom ∧ mg.left ≤ c ∧ c ≤ mg.right))
    (hr : r - 1 < m.length) (hc : c - 1 < (m.getD (r - 1) []).length) :
    getCell (applyMerge m mg) (r - 1) (c - 1) = getCell m (r - 1) (c - 1) := by
  simp only [applyMerge]
  have hpos : ∀ p ∈ mergeCellsList mg, 1 ≤ p.1 ∧ 1 ≤ p.2 := by
    intro p hp
    rw [mem_mergeCellsList] at hp
    omega
  rw [getCell_foldl_setCell _ _ _ _ _ hpos hr hc]
  rw [if_neg (by rw [mem_mergeCellsList]; simp only; omega)]

theorem getCell_applyMerges_untouched {ms : List MergeRange} {m : List (List JSValue)}
    {r c : Nat}
    (hvalid : ∀ mg ∈ ms, 1 ≤ mg.top ∧ 1 ≤ mg.left)
    (h1 : 1 ≤ r) (h2 : 1 ≤ c)
    (hout : ∀ mg ∈ ms, ¬(mg.top ≤ r ∧ r ≤ mg.bottom ∧ mg.left ≤ c ∧ c ≤ mg.right))
    (hr : r - 1 < m.length) (hc : c - 1 < (m.getD (r - 1) []).length) :
    getCell (applyMerges m ms) (r - 1) (c - 1) = getCell m (r - 1) (c - 1) := by
  induction ms generalizing m with
  | nil => rfl
  | cons a ms ih =>
    show getCell (applyMerges (applyMerge m a) ms) (r - 1) (c - 1) = _
    have hr' : r - 1 < (applyMerge m a).length := by rw [length_applyMerge]; exact hr
    have hc' : c - 1 < ((applyMerge m a).getD (r - 1) []).length := by
      rw [rowLen_applyMerge]; exact hc
    rw [ih (fun mg hmg => hvalid mg (List.mem_cons_of_mem _ hmg))
        (fun mg hmg => hout mg (List.mem_cons_of_mem _ hmg)) hr' hc']
    exact getCell_applyMerge_out (hvalid a (List.mem_cons_self _ _)) h1 h2
      (hout a (List.mem_cons_self _ _)) hr hc

theorem getCell_applyMerges_of_mem {ms : List MergeRange} {m : List (List JSValue)}
    {mg : MergeRange}
    (hvalid : ∀ x ∈ ms, 1 ≤ x.top ∧ 1 ≤ x.left)
    (hdisj : ms.Pairwise (fun a b => rangesOverlap a b = false))
    (hmem : mg ∈ ms) {r c : Nat}
    (hin : mg.top ≤ r ∧ r ≤ mg.bottom ∧ mg.left ≤ c ∧ c ≤ mg.right)
    (hr : r - 1 < m.length) (hc : c - 1 < (m.getD (r - 1) []).length)
    (har : mg.top - 1 < m.length) (hac : mg.left - 1 < (m.getD (mg.top - 1) []).length) :
    getCell (applyMerges m ms) (r - 1) (c - 1)
      = getCell m (mg.top - 1) (mg.left - 1) := by
  induction ms generalizing m with
  | nil => cases hmem
  | cons a ms ih =>
    show getCell (applyMerges (applyMerge m a) ms) (r - 1) (c - 1) = _
    have hva := hvalid a (List.mem_cons_self _ _)
    have hdisj' := (List.pairwise_cons.mp hdisj).2
    have hhead := (List.pairwise_cons.mp hdisj).1
    have hvalid' : ∀ x ∈ ms, 1 ≤ x.top ∧ 1 ≤ x.left :=
      fun x hx => hvalid x (List.mem_cons_of_mem _ hx)
    have hr' : r - 1 < (applyMerge m a).length := by rw [length_applyMerge]; exact hr
    have hc' : c - 1 < ((applyMerge m a).getD (r - 1) []).length := by
      rw [rowLen_applyMerge]; exact hc
    rcases List.mem_cons.mp hmem with rfl | htail
    · -- the target range is the head: the fill writes the anchor value and
      -- no later (disjoint) range touches the cell again
      have hstep : getCell (applyMerge m mg) (r - 1) (c - 1)
          = getCell m (mg.top - 1) (mg.left - 1) :=
        getCell_applyMerge_in hva hin hr hc
      have hout : ∀ b ∈ ms, ¬(b.top ≤ r ∧ r ≤ b.bottom ∧ b.left ≤ c ∧ c ≤ b.right) := by
        intro b hb hrc
        exact not_both_of_not_overlap (hhead b hb) r c ⟨hin, hrc⟩
      rw [getCell_applyMerges_untouched hvalid' (by omega) (by omega) hout hr' hc', hstep]
    · -- the target range sits in the tail: the head (disjoint) range does
      -- not move the target anchor, then induct
      have hvmg := hvalid mg (List.mem_cons_of_mem _ htail)
      have hanchor_in : mg.top ≤ mg.top ∧ mg.top ≤ mg.bottom ∧
          mg.left ≤ mg.left ∧ mg.left ≤ mg.right := by omega
      have hanchor_notin_a :
          ¬(a.top ≤ mg.top ∧ mg.top ≤ a.bottom ∧ a.left ≤ mg.left ∧ mg.left ≤ a.right) := by
        intro hrc
        exact not_both_of_not_overlap (hhead mg htail) mg.top mg.left ⟨hrc, hanchor_in⟩
      have har' : mg.top - 1 < (applyMerge m a).length := by
        rw [length_applyMerge]; exact har
      have hac' : mg.left - 1 < ((applyMerge m a).getD (mg.top - 1) []).length := by
        rw [rowLen_applyMerge]; exact hac
      rw [ih hvalid' hdisj' htail hr' hc' har' hac']
      exact getCell_applyMerge_out hva (by omega) (by omega)
        (by intro hrc; exact hanchor_notin_a hrc) har hac

theorem length_fillMatrix (ws : Worksheet) : (fillMatrix ws).length = ws.rows.length := by
  simp [fillMatrix]

theorem rowLen_fillMatrix (ws : Worksheet) (i : Nat) (hi : i < ws.rows.length) :
    ((fillMatrix ws).getD i []).length = maxColOf ws := by
  unfold fillMatrix
  rw [getD_map_of_lt _ hi]
  simp

theorem getCell_fillMatrix (ws : Worksheet) (i j : Nat)
    (hi : i < ws.rows.length) (hj : j < maxColOf ws) :
    getCell (fillMatrix ws) i j = extractCellValue ((ws.rows.getD i []).getD j none) := by
  unfold getCell fillMatrix
  rw [getD_map_of_lt _ hi]
  rw [getD_map_of_lt _ (by simpa using hj)]
  rw [List.getElem_range, getD_of_lt [] hi]

/-!
### Helper lemmas about the save path
-/

theorem clearRowsLoop_nil : clearRowsLoop [] [] = [] := rfl

theorem listSetPad_at_length {α : Type} (l : List α) (pad x : α) :
    listSetPad l l.length pad x = l ++ [x] := by
  simp [listSetPad]

theorem writeCells_from_end (row : List (Option Cell)) (vs : List JSValue) :
    writeCells row row.length vs = row ++ vs.map (fun v => some (mkValueCell v)) := by
  induction vs generalizing row with
  | nil => simp [writeCells]
  | cons v vs ih =>
    rw [writeCells, listSetPad_at_length]
    have h := ih (row ++ [some (mkValueCell v)])
    rw [List.length_append, List.length_cons, List.length_nil] at h
    simpa [List.append_assoc] using h

theorem writeGrid_from_end (rows : List (List (Option Cell)))
    (data : List (List JSValue)) :
    writeGrid rows rows.length data
      = rows ++ data.map (fun cs => cs.map (fun v => some (mkValueCell v))) := by
  induction data generalizing rows with
  | nil => simp [writeGrid]
  | cons cs rest ih =>
    rw [writeGrid, listSetPad_at_length, getD_of_length_le _ (Nat.le_refl _)]
    have hw : writeCells [] 0 cs = cs.map (fun v => some (mkValueCell v)) := by
      have := writeCells_from_end [] cs
      simpa using this
    rw [hw]
    have h := ih (rows ++ [cs.map (fun v => some (mkValueCell v))])
    rw [List.length_append, List.length_cons, List.length_nil] at h
    simpa [List.append_assoc] using h

theorem columnCount_of_uniform (rows : List (List (Option Cell))) (ms : List MergeRange)
    (w : Nat) (hne : rows ≠ []) (hlen : ∀ r ∈ rows, r.length = w) :
    Worksheet.columnCount { rows := rows, merges := ms } = w := by
  unfold Worksheet.columnCount
  induction rows with
  | nil => exact absurd rfl hne
  | cons a rest ih =>
    simp only [List.foldr_cons]
    have ha : a.length = w := hlen a (List.mem_cons_self _ _)
    rcases rest with _ | ⟨b, rest'⟩
    · simp [ha]
    · have hrest : (b :: rest').foldr (fun r acc => max r.length acc) 0 = w := by
        apply ih
        · exact List.cons_ne_nil _ _
        · exact fun r hr => hlen r (List.mem_cons_of_mem _ hr)
      rw [hrest, ha]
      omega

theorem extract_mkValueCell_str (s : String) :
    extractCellValue (some (mkValueCell (JSValue.str s))) = JSValue.str s := by
  simp [extractCellValue, mkValueCell, jsTruthy]

/-- C3, counterexample: a formula cell whose cached result is the number
`0` extracts to `""`, not to the stringified cached result `"0"` — the
code returns `cell.result || ""`, and `0` is falsy. -/
theorem formula_zero_result_counterexample :
    extractCellValue (some { formula := JSValue.str "A1+A2", result := JSValue.num 0,
                             text := JSValue.undefined, value := JSValue.undefined })
      = JSValue.str ""
    ∧ JSValue.str "" ≠ JSValue.str (jsToStr (JSValue.num 0)) := by
  exact ⟨rfl, by decide⟩

/-- C3, amended: for every cell that carries a (truthy) formula, the
extractor returns the raw cached result when that result is truthy and
`""` when the cached result is absent or falsy (so a cached `0`, `false`
or `""` collapses to `""` and nothing is stringified); the output never
depends on the formula text, so the formula itself is never surfaced. -/
theorem formula_extract_cached_or_empty (c : Cell)
    (hf : jsTruthy c.formula = true) :
    extractCellValue (some c)
        = (if jsTruthy c.result then c.result else JSValue.str "")
    ∧ ∀ f' : JSValue, jsTruthy f' = true →
        extractCellValue (some { c with formula := f' }) = extractCellValue (some c) := by
  constructor
  · simp [extractCellValue, hf]
  · intro f' hf'
    simp [extractCellValue, hf, hf']

/-- Witness for C3's amended theorem at a concrete formula cell with a
truthy cached result. -/
theorem formula_extract_cached_or_empty_witness :
    extractCellValue (some { formula := JSValue.str "SUM(A1:A2)", result := JSValue.num 7,
                             text := JSValue.undefined, value := JSValue.undefined })
      = (if jsTruthy (JSValue.num 7) then JSValue.num 7 else JSValue.str "") :=
  (formula_extract_cached_or_empty _ (by decide)).1

/-- C6: with `rowsPerPage = 30`, a flattened grid of one header row plus
61 data rows lays out as exactly 3 pages holding 30, 30 and 1 data rows,
and the pages walk the data rows `1..61` in order. -/
theorem pagination_61_rows :
    (exportDataPages (List.replicate 62 [JSValue.str "x"])).length = 3
    ∧ (exportDataPages (List.replicate 62 [JSValue.str "x"])).map List.length
        = [30, 30, 1]
    ∧ (exportDataPages (List.replicate 62 [JSValue.str "x"])).flatten
        = List.range' 1 61 := by
  exact ⟨by decide, by decide, by decide⟩

/-- C7, counterexample: the sanitizer only replaces characters above
`\x7F`; the ASCII control character `\x07` — outside the printable ASCII
range — survives into the queued draw text unreplaced. -/
theorem sanitize_keeps_control_char :
    sanitizeDataCell (JSValue.str (String.mk [Char.ofNat 7, Char.ofNat 97]))
      = String.mk [Char.ofNat 7, Char.ofNat 97]
    ∧ ¬printableAscii (Char.ofNat 7)
    ∧ Char.ofNat 7 ≠ ' ' := by
  exact ⟨by decide, by decide, by decide⟩

/-- C7, amended: every queued cell text equals the source text with each
character above the 7-bit ASCII range replaced by a space (characters at
or below `\x7F`, control characters included, pass through), truncated to
20 characters for data cells and 15 for header cells. -/
theorem pdf_sanitize_spec (v : JSValue) :
    (sanitizeDataCell v).data
        = ((jsStringOr v).data.take 20).map (fun ch => if ch.toNat ≤ 127 then ch else ' ')
    ∧ (sanitizeHeaderCell v).data
        = ((jsStringOr v).data.take 15).map (fun ch => if ch.toNat ≤ 127 then ch else ' ')
    ∧ (sanitizeDataCell v).length ≤ 20
    ∧ (sanitizeHeaderCell v).length ≤ 15
    ∧ (∀ ch ∈ (sanitizeDataCell v).data, ch.toNat ≤ 127)
    ∧ (∀ ch ∈ (sanitizeHeaderCell v).data, ch.toNat ≤ 127) := by
  have hdata : ∀ n : Nat,
      (jsSubstring (replaceNonAscii (jsStringOr v)) n).data
        = ((jsStringOr v).data.take n).map (fun ch => if ch.toNat ≤ 127 then ch else ' ') := by
    intro n
    show ((jsStringOr v).data.map (fun ch => if ch.toNat ≤ 127 then ch else ' ')).take n = _
    rw [← List.map_take]
  have hmem : ∀ (n : Nat) (ch : Char),
      ch ∈ (jsSubstring (replaceNonAscii (jsStringOr v)) n).data → ch.toNat ≤ 127 := by
    intro n ch hch
    rw [hdata n] at hch
    rcases List.mem_map.mp hch with ⟨a, _, rfl⟩
    by_cases h : a.toNat ≤ 127
    · simp [h]
    · simp [h]
  have hlen : ∀ n : Nat, (jsSubstring (replaceNonAscii (jsStringOr v)) n).length ≤ n := by
    intro n
    show (((jsStringOr v).data.map _).take n).length ≤ n
    simp
  exact ⟨hdata 20, hdata 15, hlen 20, hlen 15, hmem 20, hmem 15⟩

/-- Witness for C7's amended theorem at a concrete mixed string. -/
theorem pdf_sanitize_spec_witness :
    (sanitizeDataCell (JSValue.str "abc")).data
        = ((jsStringOr (JSValue.str "abc")).data.take 20).map
            (fun ch => if ch.toNat ≤ 127 then ch else ' ')
    ∧ (sanitizeHeaderCell (JSValue.str "abc")).data
        = ((jsStringOr (JSValue.str "abc")).data.take 15).map
            (fun ch => if ch.toNat ≤ 127 then ch else ' ')
    ∧ (sanitizeDataCell (JSValue.str "abc")).length ≤ 20
    ∧ (sanitizeHeaderCell (JSValue.str "abc")).length ≤ 15
    ∧ (∀ ch ∈ (sanitizeDataCell (JSValue.str "abc")).data, ch.toNat ≤ 127)
    ∧ (∀ ch ∈ (sanitizeHeaderCell (JSValue.str "abc")).data, ch.toNat ≤ 127) :=
  pdf_sanitize_spec (JSValue.str "abc")

/-- C9, counterexample: a worksheet whose flattened grid is empty is
answered with the bare placeholder array `[["","","",""]]`, not with a
`{data, mergedCells}` object. -/
theorem data_response_bare_on_empty :
    dataEndpoint emptyWorksheet
        = DataResponse.bareGrid
            [[JSValue.str "", JSValue.str "", JSValue.str "", JSValue.str ""]]
    ∧ (dataEndpoint emptyWorksheet).isWrapped = false := by
  exact ⟨rfl, rfl⟩

/-- C9, amended: every successful read of a worksheet whose flattened
grid is non-empty is the `{data, mergedCells}` object carrying the
flattened (unfilled) grid and an always-empty `mergedCells` list — the
broken `worksheet.mergeCells._merges` guard (see `reportedMergedCells`)
means the worksheet's actual merges are never reported; only the
empty-grid case falls back to the bare placeholder array. -/
theorem data_response_wrapped_of_nonempty (ws : Worksheet)
    (h : finalData ws ≠ []) :
    dataEndpoint ws = DataResponse.wrapped (finalData ws) [] := by
  simp only [dataEndpoint]
  rw [if_neg h]
  rfl

/-- Witness for C9's amended theorem at a one-cell worksheet. -/
theorem data_response_wrapped_of_nonempty_witness :
    dataEndpoint { rows := [[some (mkValueCell (JSValue.str "a"))]], merges := [] }
      = DataResponse.wrapped
          (finalData { rows := [[some (mkValueCell (JSValue.str "a"))]], merges := [] })
          [] :=
  data_response_wrapped_of_nonempty _ (by decide)

/-- C10: a save request without a usable `data` array — body missing, or
`data` absent or not an array — is answered with a 400 rejection computed
before the spreadsheet file is ever opened, leaving the stored worksheet
exactly as it was. -/
theorem save_rejected_leaves_file (body : Option SaveBody) (file : Option Worksheet)
    (h : ∀ b, body = some b → ∀ rows, b.data ≠ BodyData.arr rows) :
    ∃ msg, saveEndpoint body file = (SaveResult.badRequest msg, file) := by
  cases body with
  | none => exact ⟨_, rfl⟩
  | some b =>
    cases hd : b.data with
    | scalar v =>
      by_cases ht : jsTruthy v = true
      · refine ⟨"Invalid data format. Expected data to be an array.", ?_⟩
        simp [saveEndpoint, hd, BodyData.truthy, ht]
      · refine ⟨"Invalid data format. Expected \x7bdata: [...]\x7d", ?_⟩
        simp [saveEndpoint, hd, BodyData.truthy, ht]
    | arr rows => exact absurd hd (h b rfl rows)

/-- Witness for C10 at a concrete non-array `data` field and a concrete
non-empty stored worksheet. -/
theorem save_rejected_leaves_file_witness :
    ∃ msg, saveEndpoint
        (some { data := BodyData.scalar (JSValue.str "nope"), mergedCells := none })
        (some { rows := [[some (mkValueCell (JSValue.str "keep"))]], merges := [] })
      = (SaveResult.badRequest msg,
         some { rows := [[some (mkValueCell (JSValue.str "keep"))]], merges := [] }) :=
  save_rejected_leaves_file _ _
    (by intro b hb rows hc; injection hb with h; subst h; simp at hc)

/-- C4, counterexample: a row holding only the whitespace string `" "` is
not dropped by the save filter — `" " !== ""`, so the row survives and is
written to the worksheet. -/
theorem save_whitespace_row_kept :
    saveEndpoint (some { data := BodyData.arr [BodyRow.arr [JSValue.str " "]],
                         mergedCells := none }) none
      = (SaveResult.ok 1,
         some { rows := [[some (mkValueCell (JSValue.str " "))]], merges := [] })
    ∧ (" ").data.all (fun ch => ch.isWhitespace) = true := by
  exact ⟨by decide, by decide⟩

/-- C4, amended: the save path drops exactly the rows that are not arrays
or whose every cell is `null` or the empty string — whitespace-only rows
are kept — and writes the surviving rows to the worksheet 1:1 in their
original order before any merge handling. -/
theorem save_blank_row_filter (rows : List BodyRow) :
    ∃ ws : Worksheet,
      saveEndpoint (some { data := BodyData.arr rows, mergedCells := none }) none
        = (SaveResult.ok (rows.filter keepRow).length, some ws)
      ∧ ws.rows = (rows.filter keepRow).map
          (fun row => row.cells.map (fun v => some (mkValueCell v)))
      ∧ ws.merges = [] := by
  have hwrite := writeGrid_from_end ([] : List (List (Option Cell)))
      ((rows.filter keepRow).map BodyRow.cells)
  rw [List.length_nil, List.nil_append] at hwrite
  refine ⟨Worksheet.mk
      ((rows.filter keepRow).map (fun row => row.cells.map (fun v => some (mkValueCell v))))
      [], ?_, rfl, rfl⟩
  simp [saveEndpoint, emptyWorksheet, clearRowsLoop, hwrite, List.map_map,
    Function.comp_def, BodyData.truthy]

/-- C1, counterexample: the empty grid is rectangular and has no blank
rows, and saving it into an empty worksheet succeeds — but reading back
yields the placeholder grid `[["","","",""]]`, not the original empty
grid. -/
theorem roundtrip_empty_grid_counterexample :
    saveEndpoint (some { data := BodyData.arr [], mergedCells := none }) none
      = (SaveResult.ok 0, some emptyWorksheet)
    ∧ dataEndpoint emptyWorksheet
        = DataResponse.bareGrid
            [[JSValue.str "", JSValue.str "", JSValue.str "", JSValue.str ""]]
    ∧ ([[JSValue.str "", JSValue.str "", JSValue.str "", JSValue.str ""]] :
        List (List JSValue)) ≠ [] := by
  exact ⟨by decide, rfl, by decide⟩

/-- C8: the flattener always produces a rectangular grid — every row of
`finalData`, even for a worksheet with ragged row lengths, has exactly
`maxColOf ws` entries — and any slot beyond a short source row's stored
cells is padded with `""` in the filled matrix. -/
theorem flatten_rectangular (ws : Worksheet) :
    (∀ row ∈ finalData ws, row.length = maxColOf ws)
    ∧ (∀ i j : Nat, i < ws.rowCount → j < maxColOf ws →
        (ws.rows.getD i []).length ≤ j → getCell (fillMatrix ws) i j = JSValue.str "") := by
  constructor
  · intro row hrow
    have hrow' : row ∈ applyMerges (fillMatrix ws) (reportedMergedCells ws) :=
      List.mem_of_mem_filter hrow
    rcases List.mem_iff_getElem.mp hrow' with ⟨i, hi, rfl⟩
    have hi' : i < ws.rows.length := by
      rw [← length_fillMatrix ws, ← length_applyMerges (reportedMergedCells ws)]; exact hi
    rw [← getD_of_lt [] hi, rowLen_applyMerges, rowLen_fillMatrix ws i hi']
  · intro i j hi hj hlen
    rw [getCell_fillMatrix ws i j hi hj, getD_of_length_le none hlen]
    rfl

/-- Witness for C8 at a concrete ragged two-row worksheet. -/
theorem flatten_rectangular_witness :
    (∀ row ∈ finalData raggedWs, row.length = maxColOf raggedWs)
    ∧ (∀ i j : Nat, i < raggedWs.rowCount → j < maxColOf raggedWs →
        (raggedWs.rows.getD i []).length ≤ j →
        getCell (fillMatrix raggedWs) i j = JSValue.str "") :=
  flatten_rectangular raggedWs

/-- The fill pass of lines 211–220 as written (it is dead code at
runtime, since the `mergedCells` list it would receive is always empty —
see `reportedMergedCells`): were it run over the worksheet's merge
dictionary after the value-population pass, then under the invariant that
merge ranges are 1-based, in bounds and pairwise non-overlapping, every
cell of every range — the anchor's own position included — would equal
the anchor's extracted source value. -/
theorem merge_fill_down (ws : Worksheet)
    (hvalid : ∀ mg ∈ ws.merges,
      1 ≤ mg.top ∧ mg.top ≤ mg.bottom ∧ mg.bottom ≤ ws.rowCount ∧
      1 ≤ mg.left ∧ mg.left ≤ mg.right ∧ mg.right ≤ maxColOf ws)
    (hdisj : ws.merges.Pairwise (fun a b => rangesOverlap a b = false))
    (mg : MergeRange) (hmem : mg ∈ ws.merges)
    (r c : Nat) (hr : mg.top ≤ r ∧ r ≤ mg.bottom) (hc : mg.left ≤ c ∧ c ≤ mg.right) :
    getCell (applyMerges (fillMatrix ws) ws.merges) (r - 1) (c - 1)
      = extractCellValue ((ws.rows.getD (mg.top - 1) []).getD (mg.left - 1) none) := by
  have hv := hvalid mg hmem
  unfold Worksheet.rowCount at hv
  have hvalid' : ∀ x ∈ ws.merges, 1 ≤ x.top ∧ 1 ≤ x.left := by
    intro x hx
    have h := hvalid x hx
    exact ⟨h.1, h.2.2.2.1⟩
  have hlen : (fillMatrix ws).length = ws.rows.length := length_fillMatrix ws
  have hrlt : r - 1 < ws.rows.length := by omega
  have htlt : mg.top - 1 < ws.rows.length := by omega
  have hrb : r - 1 < (fillMatrix ws).length := by omega
  have hcb : c - 1 < ((fillMatrix ws).getD (r - 1) []).length := by
    rw [rowLen_fillMatrix ws _ hrlt]; omega
  have harb : mg.top - 1 < (fillMatrix ws).length := by omega
  have hacb : mg.left - 1 < ((fillMatrix ws).getD (mg.top - 1) []).length := by
    rw [rowLen_fillMatrix ws _ htlt]; omega
  rw [getCell_applyMerges_of_mem hvalid' hdisj hmem ⟨hr.1, hr.2, hc.1, hc.2⟩ hrb hcb harb hacb]
  exact getCell_fillMatrix ws (mg.top - 1) (mg.left - 1) htlt (by
    have := rowLen_fillMatrix ws _ htlt
    omega)

/-- The fill pass characterization evaluated at the spec's example and
cell `(2, 2)` (again: the runtime never executes this pass). -/
theorem merge_fill_down_example :
    getCell (applyMerges (fillMatrix mergedWs) mergedWs.merges) (2 - 1) (2 - 1)
      = extractCellValue ((mergedWs.rows.getD (1 - 1) []).getD (1 - 1) none) :=
  merge_fill_down mergedWs (by decide) (by decide) (MergeRange.mk 1 1 2 2) (by decide)
    2 2 (by decide) (by decide)

/-- C2 (code bug): the program never performs the merge fill-down.  The
guard `worksheet.mergeCells._merges` (line 182) reads `_merges` off the
ExcelJS `mergeCells` *method* and is always `undefined`, so the computed
`mergedCells` list is always empty and the fill of lines 211–220 is dead
code — even though the branch body's own `Object.keys(worksheet._merges)`
and the surrounding comments show the fill was intended.  At the spec's
own example (anchor `(1,1) = "X"` merged over rows 1–2 × columns 1–2,
non-anchor cells stored empty), the flattened grid leaves `grid[0][1]`
as `""` where the claim requires `"X"` — the value the (dead) fill pass
would have produced there. -/
theorem merge_fill_guard_dead :
    reportedMergedCells specMergeWs = []
    ∧ finalData specMergeWs
        = [[JSValue.str "X", JSValue.str "", JSValue.str "p"],
           [JSValue.str "", JSValue.str "", JSValue.str "q"]]
    ∧ getCell (applyMerges (fillMatrix specMergeWs) specMergeWs.merges) 0 1
        = JSValue.str "X"
    ∧ JSValue.str "" ≠ JSValue.str "X" := by
  exact ⟨rfl, by decide, by decide, by decide⟩

/-- C1, amended: for every non-empty rectangular grid of strings with no
blank rows, saving the grid into an empty spreadsheet and reading it back
reproduces the grid exactly, wrapped with an empty merge list. -/
theorem save_then_read_roundtrip (grid : List (List String)) (w : Nat)
    (hne : grid ≠ [])
    (hrect : ∀ row ∈ grid, row.length = w)
    (hnb : ∀ row ∈ grid, ∃ c ∈ row, c ≠ "") :
    ∃ ws : Worksheet,
      saveEndpoint
          (some { data := BodyData.arr (grid.map (fun r => BodyRow.arr (r.map JSValue.str))),
                  mergedCells := none }) none
        = (SaveResult.ok grid.length, some ws)
      ∧ dataEndpoint ws = DataResponse.wrapped (grid.map (fun r => r.map JSValue.str)) [] := by
  set bodyRows := grid.map (fun r => BodyRow.arr (r.map JSValue.str)) with hbody
  set gridJS := grid.map (fun r => r.map JSValue.str) with hgridJS
  -- every row passes the save filter
  have hkeep : ∀ br ∈ bodyRows, keepRow br = true := by
    intro br hbr
    rcases List.mem_map.mp hbr with ⟨r, hrg, rfl⟩
    rcases hnb r hrg with ⟨c, hcr, hcne⟩
    simp only [keepRow, List.any_eq_true]
    refine ⟨JSValue.str c, List.mem_map.mpr ⟨c, hcr, rfl⟩, ?_⟩
    simp [hcne]
  have hfilter : bodyRows.filter keepRow = bodyRows := List.filter_eq_self.mpr hkeep
  have hcells : bodyRows.map BodyRow.cells = gridJS := by
    rw [hbody, List.map_map]; rfl
  have hwrite : writeGrid [] 0 (bodyRows.map BodyRow.cells)
      = gridJS.map (fun cs => cs.map (fun v => some (mkValueCell v))) := by
    have h := writeGrid_from_end [] (bodyRows.map BodyRow.cells)
    rw [List.length_nil, List.nil_append] at h
    rw [h, hcells]
  set ws : Worksheet :=
    Worksheet.mk (gridJS.map (fun cs => cs.map (fun v => some (mkValueCell v)))) []
    with hws
  -- each worksheet row carries w cells
  have hrowlen : ∀ row ∈ ws.rows, row.length = w := by
    intro row hrow
    rcases List.mem_map.mp hrow with ⟨cs, hcs, rfl⟩
    rcases List.mem_map.mp hcs with ⟨r, hrg, rfl⟩
    simp [hrect r hrg]
  have hwsne : ws.rows ≠ [] := by
    simp only [hws, hgridJS]
    intro h
    exact hne (by simpa using h)
  have hw0 : w ≠ 0 := by
    rcases grid with _ | ⟨g0, rest⟩
    · exact absurd rfl hne
    · rcases hnb g0 (List.mem_cons_self _ _) with ⟨c, hcg, _⟩
      have := hrect g0 (List.mem_cons_self _ _)
      have : g0 ≠ [] := fun h => by simp [h] at hcg
      intro hw
      rcases g0 with _ | _
      · exact this rfl
      · simp_all
  have hcol : ws.columnCount = w := columnCount_of_uniform _ [] w hwsne hrowlen
  have hmax : maxColOf ws = w := by
    unfold maxColOf
    rw [hcol, if_neg hw0]
  -- flattening the saved worksheet recovers the grid of JS strings
  have hfill : fillMatrix ws = gridJS := by
    unfold fillMatrix
    show (gridJS.map (fun cs => cs.map (fun v => some (mkValueCell v)))).map _ = _
    rw [List.map_map, hgridJS, List.map_map]
    apply List.map_congr_left
    intro r hrg
    show (List.range (maxColOf ws)).map
        (fun c => extractCellValue
          (((r.map JSValue.str).map (fun v => some (mkValueCell v))).getD c none))
      = r.map JSValue.str
    have hLlen : ((r.map JSValue.str).map (fun v => some (mkValueCell v))).length = w := by
      simp [hrect r hrg]
    rw [hmax, ← hLlen, range_map_getD]
    rw [List.map_map, List.map_map]
    apply List.map_congr_left
    intro s _
    exact extract_mkValueCell_str s
  have hrowdata : ∀ row ∈ gridJS, (row.any (fun cell => cell ≠ JSValue.str "")) = true := by
    intro row hrow
    rcases List.mem_map.mp hrow with ⟨r, hrg, rfl⟩
    rcases hnb r hrg with ⟨c, hcr, hcne⟩
    simp only [List.any_eq_true]
    refine ⟨JSValue.str c, List.mem_map.mpr ⟨c, hcr, rfl⟩, ?_⟩
    simp [hcne]
  have hfinal : finalData ws = gridJS := by
    unfold finalData
    have hmerges : applyMerges (fillMatrix ws) (reportedMergedCells ws) = fillMatrix ws := rfl
    rw [hmerges, hfill]
    exact List.filter_eq_self.mpr hrowdata
  refine ⟨ws, ?_, ?_⟩
  · have hlen2 : bodyRows.length = grid.length := by
      rw [hbody, List.length_map]
    simp only [saveEndpoint, BodyData.truthy, Bool.not_true, Bool.false_eq_true,
      if_false, emptyWorksheet, clearRowsLoop, hfilter, hwrite, hlen2]
  · have hne2 : finalData ws ≠ [] := by
      rw [hfinal, hgridJS]
      intro h
      exact hne (by simpa using h)
    simp only [dataEndpoint]
    rw [if_neg hne2, hfinal]
    rfl

/-- Witness for C1's amended theorem at the concrete 2×2 grid
`[["a","b"],["c","d"]]`. -/
theorem save_then_read_roundtrip_witness :
    ∃ ws : Worksheet,
      saveEndpoint
          (some { data := BodyData.arr ([["a", "b"], ["c", "d"]].map
                    (fun r => BodyRow.arr (r.map JSValue.str))),
                  mergedCells := none }) none
        = (SaveResult.ok ([["a", "b"], ["c", "d"]] : List (List String)).length, some ws)
      ∧ dataEndpoint ws
          = DataResponse.wrapped
              (([["a", "b"], ["c", "d"]] : List (List String)).map
                (fun r => r.map JSValue.str)) [] :=
  save_then_read_roundtrip [["a", "b"], ["c", "d"]] 2 (by decide) (by decide) (by decide)

end Webesheet
